import Mathlib

/-!
Verification of the map-generation core of retroflightsim: the surface
sampler (raycast scatter of hills and mountains), the terrain tiling loop,
and the probabilistic field populator.  Numbers are modelled as exact
rationals; random draws are modelled as explicit streams of rationals in
the half-open unit interval.
-/

namespace RetroMap

/-- A 3D point or scale vector, components as exact rationals. -/
structure Vec3 where
  x : ℚ
  y : ℚ
  z : ℚ
  deriving Repr, DecidableEq

/-- Modelled from the spec: the geometric representation of a
`SurfaceRegion` usable for downward ray intersection tests (the
implementation of surface geometry lives in the engine, outside `src/`).
A face is a horizontal axis-aligned rectangle at height `y`. -/
structure Face where
  minX : ℚ
  maxX : ℚ
  minZ : ℚ
  maxZ : ℚ
  y : ℚ
  deriving Repr, DecidableEq

/-- Whether the downward ray at horizontal position `(px, pz)` meets the face. -/
def Face.hitBy (f : Face) (px pz : ℚ) : Bool :=
  decide (f.minX ≤ px) && decide (px ≤ f.maxX) &&
  decide (f.minZ ≤ pz) && decide (pz ≤ f.maxZ)

/-- A surface region: a list of faces, looked up by tag on the terrain model. -/
def SurfaceRegion : Type := List Face

/-- Topmost element of a list of hit heights: `none` on no hits. -/
def topHit : List ℚ → Option ℚ
  | [] => none
  | h :: t =>
    match topHit t with
    | none => some h
    | some m => some (max h m)

/-- Modelled from the spec: construct a vertical ray at `(px, +infinity, pz)`
pointing downward, intersect it against the region, and if one or more
intersections exist return the nearest hit point (highest Y, topmost
surface); the body of `randomPosOver` is not under `src/`. -/
def raycastDown (region : List Face) (px pz : ℚ) : Option Vec3 :=
  match topHit ((region.filter (fun f => f.hitBy px pz)).map (fun f => f.y)) with
  | none => none
  | some m => some ⟨px, m, pz⟩

/-- Modelled from the spec: `sampleOnSurface` places the ray at the center
plus a random horizontal offset `(dx, dz)` drawn within the disc of radius
`spread`; the offset itself is passed in as the value of that draw. -/
def sampleOnSurface (region : List Face) (center : ℚ × ℚ) (dx dz : ℚ) : Option Vec3 :=
  raycastDown region (center.1 + dx) (center.2 + dz)

/-- Modelled from the spec: a missed attempt (random point outside the
footprint) is retried with a new random offset, bounded by a retry cap;
`tries` is the list of offsets drawn for the bounded attempts. -/
def sampleWithRetry (region : List Face) (center : ℚ × ℚ) : List (ℚ × ℚ) → Option Vec3
  | [] => none
  | (dx, dz) :: rest =>
    match sampleOnSurface region center dx dz with
    | some p => some p
    | none => sampleWithRetry region center rest

/-- One placed scenery instance: position, non-uniform scale, and the
rotation about the vertical axis expressed as `rotCoeff * pi`. -/
structure PlacedInstance where
  pos : Vec3
  scale : Vec3
  rotCoeff : ℚ
  deriving Repr, DecidableEq

/-- The hill transform from `setupScene`: scale set in one call
`scale.set(0.8 + r1/5, 0.5 + r2/2, 0.8 + r3/5)` and rotation
`pi/4 + (r4 - 0.5) * pi/4` about the vertical axis. -/
def hillTransform (r1 r2 r3 r4 : ℚ) : Vec3 × ℚ :=
  (⟨4/5 + r1/5, 1/2 + r2/2, 4/5 + r3/5⟩, 1/4 + (r4 - 1/2) * (1/4))

/-- The mountain transform from `setupScene`: scale assigned component by
component (`scale.x`, then `scale.y`, then `scale.z`) and rotation
`pi/4 + (r4 - 0.5) * pi/4` about the vertical axis. -/
def mountainTransform (r1 r2 r3 r4 : ℚ) : Vec3 × ℚ :=
  let s0 : Vec3 := ⟨1, 1, 1⟩
  let s1 : Vec3 := { s0 with x := 4/5 + r1/5 }
  let s2 : Vec3 := { s1 with y := 1/2 + r2/2 }
  let s3 : Vec3 := { s2 with z := 4/5 + r3/5 }
  (s3, 1/4 + (r4 - 1/2) * (1/4))

/-- One scatter pass of `setupScene`: `count` iterations, each sampling a
position over the region (with bounded retries) and, on success, applying
the per-type transform to the next four random draws.  Iteration `i`
consumes draws `4*i .. 4*i+3` for scale and rotation. -/
def scatterPass (transform : ℚ → ℚ → ℚ → ℚ → Vec3 × ℚ) (region : List Face)
    (center : ℚ × ℚ) (count : Nat) (tries : Nat → List (ℚ × ℚ))
    (draws : Nat → ℚ) : List PlacedInstance :=
  (List.range count).filterMap fun i =>
    (sampleWithRetry region center (tries i)).map fun p =>
      { pos := p,
        scale := (transform (draws (4 * i)) (draws (4 * i + 1))
          (draws (4 * i + 2)) (draws (4 * i + 3))).1,
        rotCoeff := (transform (draws (4 * i)) (draws (4 * i + 1))
          (draws (4 * i + 2)) (draws (4 * i + 3))).2 }

/-- Modelled from the spec: the scatter entry point first looks up the named
surface region by tag (`model.lod[0].flats.find(mesh => mesh.name === tag)`
followed by `assertIsDefined`); a missing tag is a fatal precondition
violation raised before any random sampling, with a diagnostic naming the
tag.  The body of `assertIsDefined` is not under `src/`. -/
def scatterOnTag (flats : List (String × List Face)) (tag : String)
    (transform : ℚ → ℚ → ℚ → ℚ → Vec3 × ℚ) (center : ℚ × ℚ) (count : Nat)
    (tries : Nat → List (ℚ × ℚ)) (draws : Nat → ℚ) :
    Except String (List PlacedInstance) :=
  match flats.find? (fun f => f.1 == tag) with
  | none => Except.error ("PreconditionViolation: missing surface " ++ tag)
  | some f => Except.ok (scatterPass transform f.2 center count tries draws)

/-- One tile of the 5x5 terrain grid from `setupScene`, at grid coordinate
`(gx, gz)`: position `gx * MS * SC` on each horizontal axis and scale
`SC * (|g| % 2 == 0 ? 1 : -1)` per axis, where `MS` is
TERRAIN_MODEL_SIZE and `SC` is TERRAIN_SCALE. -/
structure MapTile where
  gx : Int
  gz : Int
  posX : ℚ
  posZ : ℚ
  scaleX : ℚ
  scaleZ : ℚ
  deriving Repr, DecidableEq

/-- The tile the loop body builds for grid coordinate `(x, z)`. -/
def tileFor (MS SC : ℚ) (x z : Int) : MapTile :=
  { gx := x, gz := z,
    posX := (x : ℚ) * MS * SC,
    posZ := (z : ℚ) * MS * SC,
    scaleX := SC * (if x.natAbs % 2 = 0 then 1 else -1),
    scaleZ := SC * (if z.natAbs % 2 = 0 then 1 else -1) }

/-- The terrain tiling loop: `for x in -2..2, for z in -2..2` add one tile. -/
def terrainTiles (MS SC : ℚ) : List MapTile :=
  (List.range 5).flatMap fun i =>
    (List.range 5).map fun j => tileFor MS SC ((i : Int) - 2) ((j : Int) - 2)

/-- One entry of the weighted rule set of a scenery field: model id,
selection probability, jitter factor, rotation policy. -/
structure CellVariation where
  model : String
  probability : ℚ
  jitter : ℚ
  randomRotation : Bool
  deriving Repr, DecidableEq

/-- The configuration of a scenery field (`SceneryFieldSettings`). -/
structure SceneryFieldSettings where
  tilesInField : Nat
  cellsInTile : Nat
  tileLength : ℚ
  cellVariations : List CellVariation
  deriving Repr, DecidableEq

/-- Modelled from the spec: walk the variation probabilities in declaration
order, accumulating probability mass; return the index of the first
variation whose cumulative probability boundary exceeds `r`, or `none` when
`r` falls past the end of all intervals.  The body of the field populator
(`sceneryField.ts`) is not under `src/`. -/
def selectIndex : List ℚ → ℚ → Option Nat
  | [], _ => none
  | p :: ps, r => if r < p then some 0 else (selectIndex ps (r - p)).map (· + 1)

/-- Sum of the first `i` probabilities: the lower boundary of interval `i`. -/
def sumTake (ps : List ℚ) (i : Nat) : ℚ := (ps.take i).sum

/-- Modelled from the spec: enumerate every cell of the field as
`(tileX, tileZ, cellX, cellZ)` indices, `tilesInField x tilesInField`
tiles each subdivided into `cellsInTile x cellsInTile` cells. -/
def fieldCells (s : SceneryFieldSettings) : List (Nat × Nat × Nat × Nat) :=
  (List.range s.tilesInField).flatMap fun tx =>
    (List.range s.tilesInField).flatMap fun tz =>
      (List.range s.cellsInTile).flatMap fun cx =>
        (List.range s.cellsInTile).map fun cz => (tx, tz, cx, cz)

/-- Modelled from the spec: the world-space center of a cell, computed from
its tile and sub-cell indices and the `tileLength` / `cellsInTile`
geometry, relative to the field origin corner. -/
def cellCenter (origin : ℚ × ℚ) (tileLength : ℚ) (cellsInTile : Nat)
    (cell : Nat × Nat × Nat × Nat) : ℚ × ℚ :=
  let cs := tileLength / (cellsInTile : ℚ)
  (origin.1 + (cell.1 : ℚ) * tileLength + ((cell.2.2.1 : ℚ) + 1/2) * cs,
   origin.2 + (cell.2.1 : ℚ) * tileLength + ((cell.2.2.2 : ℚ) + 1/2) * cs)

/-- An instance emitted by the field populator: model id, horizontal
position, rotation coefficient (angle = coefficient times pi). -/
structure FieldInstance where
  model : String
  posX : ℚ
  posZ : ℚ
  rotCoeff : ℚ
  deriving Repr, DecidableEq

/-- Modelled from the spec: populate one cell.  Cell number `k` draws
`r = draws (4*k)` and selects a variation by the cumulative walk; on
selection, the instance sits at the cell center plus a per-axis offset
uniform in `[-jitter*cellSize/2, +jitter*cellSize/2)` (draws `4*k+1` and
`4*k+2`), and rotation is uniform in `[0, 2*pi)` when `randomRotation`
(draw `4*k+3`), else identity. -/
def populateCell (s : SceneryFieldSettings) (origin : ℚ × ℚ)
    (cell : Nat × Nat × Nat × Nat) (k : Nat) (draws : Nat → ℚ) :
    Option FieldInstance :=
  (selectIndex (s.cellVariations.map (fun v => v.probability)) (draws (4 * k))).bind
    fun i => (s.cellVariations[i]?).map fun v =>
      let cs := s.tileLength / (s.cellsInTile : ℚ)
      let c := cellCenter origin s.tileLength s.cellsInTile cell
      { model := v.model,
        posX := c.1 + (draws (4 * k + 1) - 1/2) * (v.jitter * cs),
        posZ := c.2 + (draws (4 * k + 2) - 1/2) * (v.jitter * cs),
        rotCoeff := if v.randomRotation then 2 * draws (4 * k + 3) else 0 }

/-- Modelled from the spec: the field populator deterministically enumerates
every cell and populates each independently from the draw stream. -/
def populateField (s : SceneryFieldSettings) (origin : ℚ × ℚ)
    (draws : Nat → ℚ) : List FieldInstance :=
  (fieldCells s).enum.filterMap fun ic => populateCell s origin ic.2 ic.1 draws

/-! Helper lemmas. -/

theorem topHit_mem : ∀ (l : List ℚ) (m : ℚ), topHit l = some m → m ∈ l
  | [], m, h => by simp [topHit] at h
  | a :: l, m, h => by
    rw [topHit] at h
    cases hl : topHit l with
    | none =>
      rw [hl] at h
      injection h with h
      subst h
      exact List.mem_cons_self a l
    | some b =>
      rw [hl] at h
      injection h with h
      subst h
      rcases max_choice a b with hm | hm
      · rw [hm]; exact List.mem_cons_self a l
      · rw [hm]; exact List.mem_cons_of_mem a (topHit_mem l b hl)

theorem topHit_ne_none (a : ℚ) (l : List ℚ) : topHit (a :: l) ≠ none := by
  rw [topHit]
  cases topHit l <;> simp

theorem topHit_le : ∀ (l : List ℚ) (m : ℚ), topHit l = some m → ∀ y ∈ l, y ≤ m
  | [], m, h => by simp [topHit] at h
  | a :: l, m, h => by
    rw [topHit] at h
    cases hl : topHit l with
    | none =>
      rw [hl] at h
      injection h with h
      subst h
      intro y hy
      cases l with
      | nil =>
        have : y = a := by simpa using hy
        exact le_of_eq this
      | cons b t => exact absurd hl (topHit_ne_none b t)
    | some b =>
      rw [hl] at h
      injection h with h
      subst h
      intro y hy
      rcases List.mem_cons.mp hy with rfl | hy
      · exact le_max_left _ _
      · exact le_trans (topHit_le l b hl y hy) (le_max_right _ _)

theorem length_filterMap_all_some {α β : Type} (f : α → Option β) :
    ∀ l : List α, (∀ a ∈ l, (f a).isSome) → (l.filterMap f).length = l.length
  | [], _ => rfl
  | a :: l, h => by
    rcases Option.isSome_iff_exists.mp (h a (List.mem_cons_self a l)) with ⟨b, hb⟩
    rw [List.filterMap_cons_some hb, List.length_cons, List.length_cons,
      length_filterMap_all_some f l (fun x hx => h x (List.mem_cons_of_mem a hx))]

theorem sum_map_const {α : Type} (k : Nat) :
    ∀ l : List α, (l.map fun _ => k).sum = l.length * k
  | [] => by simp
  | a :: l => by
    simp only [List.map_cons, List.sum_cons, List.length_cons, sum_map_const k l]
    ring

theorem sumTake_nonneg (ps : List ℚ) (hp : ∀ p ∈ ps, 0 ≤ p) (i : Nat) :
    0 ≤ sumTake ps i :=
  List.sum_nonneg fun q hq => hp q (List.take_subset i ps hq)

theorem sumTake_zero (ps : List ℚ) : sumTake ps 0 = 0 := rfl

theorem sumTake_cons_succ (q : ℚ) (ps : List ℚ) (i : Nat) :
    sumTake (q :: ps) (i + 1) = q + sumTake ps i := by
  simp [sumTake]

theorem selectIndex_eq_some_iff :
    ∀ (ps : List ℚ) (r : ℚ), (∀ p ∈ ps, 0 ≤ p) → 0 ≤ r → ∀ i : Nat,
      (selectIndex ps r = some i ↔
        ∃ p, ps[i]? = some p ∧ sumTake ps i ≤ r ∧ r < sumTake ps i + p)
  | [], r, hp, hr, i => by simp [selectIndex]
  | q :: ps, r, hp, hr, i => by
    have hq : 0 ≤ q := hp q (List.mem_cons_self q ps)
    have hps : ∀ p ∈ ps, 0 ≤ p := fun p hm => hp p (List.mem_cons_of_mem q hm)
    rw [selectIndex]
    by_cases hlt : r < q
    · rw [if_pos hlt]
      cases i with
      | zero =>
        simp only [List.getElem?_cons_zero, sumTake_zero]
        constructor
        · intro _
          exact ⟨q, rfl, hr, by linarith⟩
        · intro _
          trivial
      | succ i =>
        constructor
        · intro h
          simp at h
        · rintro ⟨p, hgp, h1, h2⟩
          exfalso
          rw [sumTake_cons_succ] at h1
          have := sumTake_nonneg ps hps i
          linarith
    · rw [if_neg hlt]
      have hqr : q ≤ r := not_lt.mp hlt
      have hr' : 0 ≤ r - q := by linarith
      cases i with
      | zero =>
        constructor
        · intro h
          rcases Option.map_eq_some'.mp h with ⟨j, _, hj⟩
          omega
        · rintro ⟨p, hgp, h1, h2⟩
          rw [List.getElem?_cons_zero] at hgp
          injection hgp with hgp
          subst hgp
          rw [sumTake_zero] at h2
          exact absurd (show r < q by linarith) hlt
      | succ i =>
        rw [Option.map_eq_some']
        constructor
        · rintro ⟨j, hj, hj1⟩
          have hji : j = i := by omega
          rw [hji] at hj
          rcases (selectIndex_eq_some_iff ps (r - q) hps hr' i).mp hj with ⟨p, hgp, h1, h2⟩
          refine ⟨p, by simpa using hgp, ?_, ?_⟩
          · rw [sumTake_cons_succ]; linarith
          · rw [sumTake_cons_succ]; linarith
        · rintro ⟨p, hgp, h1, h2⟩
          rw [sumTake_cons_succ] at h1 h2
          refine ⟨i, (selectIndex_eq_some_iff ps (r - q) hps hr' i).mpr
            ⟨p, by simpa using hgp, by linarith, by linarith⟩, rfl⟩

theorem selectIndex_eq_none_of_sum_le :
    ∀ (ps : List ℚ) (r : ℚ), (∀ p ∈ ps, 0 ≤ p) → ps.sum ≤ r → selectIndex ps r = none
  | [], _, _, _ => rfl
  | q :: ps, r, hp, hsum => by
    have hps : ∀ p ∈ ps, 0 ≤ p := fun p hm => hp p (List.mem_cons_of_mem q hm)
    have hsums : 0 ≤ ps.sum := List.sum_nonneg hps
    rw [List.sum_cons] at hsum
    rw [selectIndex, if_neg (not_lt.mpr (by linarith : q ≤ r)),
      selectIndex_eq_none_of_sum_le ps (r - q) hps (by linarith)]
    rfl

theorem fieldCells_length (s : SceneryFieldSettings) :
    (fieldCells s).length = (s.tilesInField * s.cellsInTile) ^ 2 := by
  unfold fieldCells
  simp only [List.length_flatMap, Function.comp_def, List.length_map,
    List.length_range, sum_map_const]
  ring

theorem scatterPass_length (transform : ℚ → ℚ → ℚ → ℚ → Vec3 × ℚ)
    (region : List Face) (center : ℚ × ℚ) (count : Nat)
    (tries : Nat → List (ℚ × ℚ)) (draws : Nat → ℚ)
    (h : ∀ i, i < count → (sampleWithRetry region center (tries i)).isSome) :
    (scatterPass transform region center count tries draws).length = count := by
  unfold scatterPass
  rw [length_filterMap_all_some]
  · exact List.length_range count
  · intro i hi
    rcases Option.isSome_iff_exists.mp (h i (List.mem_range.mp hi)) with ⟨p, hp⟩
    rw [hp]
    rfl

theorem scatterPass_mem (transform : ℚ → ℚ → ℚ → ℚ → Vec3 × ℚ)
    (region : List Face) (center : ℚ × ℚ) (count : Nat)
    (tries : Nat → List (ℚ × ℚ)) (draws : Nat → ℚ) (inst : PlacedInstance)
    (h : inst ∈ scatterPass transform region center count tries draws) :
    ∃ i p, i < count ∧ sampleWithRetry region center (tries i) = some p ∧
      inst = { pos := p,
               scale := (transform (draws (4 * i)) (draws (4 * i + 1))
                 (draws (4 * i + 2)) (draws (4 * i + 3))).1,
               rotCoeff := (transform (draws (4 * i)) (draws (4 * i + 1))
                 (draws (4 * i + 2)) (draws (4 * i + 3))).2 } := by
  unfold scatterPass at h
  rcases List.mem_filterMap.mp h with ⟨i, hi, hfi⟩
  rcases Option.map_eq_some'.mp hfi with ⟨p, hp, hinst⟩
  exact ⟨i, p, List.mem_range.mp hi, hp, hinst.symm⟩

/-! Concrete configurations used by the witnesses. -/

/-- The first two cell variations of the shipped field configuration
(`fieldOptions` in `game.ts`): a farm with probability 0.4 and jitter 0.9,
and green crops with probability 0.25 and jitter 1.2. -/
def demoFieldSettings : SceneryFieldSettings :=
  { tilesInField := 7, cellsInTile := 2, tileLength := 2500,
    cellVariations :=
      [ { model := "assets/farm01.gltf", probability := 2/5,
          jitter := 9/10, randomRotation := true },
        { model := "lib:cropGreen", probability := 1/4,
          jitter := 6/5, randomRotation := false } ] }

/-- A single cell variation of probability 1. -/
def unitVariation : CellVariation :=
  { model := "assets/farm01.gltf", probability := 1,
    jitter := 9/10, randomRotation := true }

/-- A field configuration with a single variation of probability 1. -/
def unitFieldSettings : SceneryFieldSettings :=
  { tilesInField := 7, cellsInTile := 2, tileLength := 2500,
    cellVariations := [unitVariation] }

/-! Claim theorems. -/

/-- C1: for every cell processed by the Field Populator, given the uniform
draw `r` in `[0,1)`, the variation selected is the first one, in declaration
order of the `cellVariations` list, whose cumulative probability boundary
exceeds `r` (variation `i` owns the half-open interval from the sum of the
earlier probabilities up to that sum plus its own probability); and if `r`
falls at or past the total probability mass, no instance is placed for that
cell. -/
theorem claim_C1_field_variation_selection (s : SceneryFieldSettings)
    (origin : ℚ × ℚ) (cell : Nat × Nat × Nat × Nat) (k : Nat) (draws : Nat → ℚ)
    (hp : ∀ v ∈ s.cellVariations, 0 ≤ v.probability) (hr : 0 ≤ draws (4 * k)) :
    (∀ i, selectIndex (s.cellVariations.map fun v => v.probability) (draws (4 * k)) = some i ↔
      ∃ p, (s.cellVariations.map fun v => v.probability)[i]? = some p ∧
        sumTake (s.cellVariations.map fun v => v.probability) i ≤ draws (4 * k) ∧
        draws (4 * k) < sumTake (s.cellVariations.map fun v => v.probability) i + p)
    ∧ ((s.cellVariations.map fun v => v.probability).sum ≤ draws (4 * k) →
        populateCell s origin cell k draws = none) := by
  have hps : ∀ p ∈ s.cellVariations.map fun v => v.probability, 0 ≤ p := by
    intro p hm
    rcases List.mem_map.mp hm with ⟨v, hv, rfl⟩
    exact hp v hv
  constructor
  · intro i
    exact selectIndex_eq_some_iff _ _ hps hr i
  · intro hsum
    unfold populateCell
    rw [selectIndex_eq_none_of_sum_le _ _ hps hsum]
    rfl

/-- Witness for C1: with the shipped probabilities 0.4 and 0.25, the draw
0.7 lies at or past the total mass 0.65, so the cell stays empty. -/
theorem claim_C1_field_variation_selection_witness :
    populateCell demoFieldSettings (0, 0) (0, 0, 0, 0) 0 (fun _ => 7/10) = none := by
  have h := claim_C1_field_variation_selection demoFieldSettings (0, 0) (0, 0, 0, 0) 0
    (fun _ => 7/10)
    (by intro v hv; simp only [demoFieldSettings, List.mem_cons, List.not_mem_nil,
      or_false] at hv; rcases hv with rfl | rfl <;> norm_num)
    (by norm_num)
  exact h.2 (by simp only [demoFieldSettings, List.map_cons, List.map_nil,
    List.sum_cons, List.sum_nil]; norm_num)

/-- C2: for every valid Field Populator configuration, the number of cells
enumerated equals `(tilesInField * cellsInTile)` squared exactly; in
particular `tilesInField = 7` with `cellsInTile = 2` enumerates exactly 196
cells, and with a single cell variation of probability 1 exactly one
instance per cell is produced. -/
theorem claim_C2_field_cell_count (s : SceneryFieldSettings) (draws : Nat → ℚ)
    (_h1 : 0 < s.tileLength) (_h2 : 1 ≤ s.tilesInField) (_h3 : 1 ≤ s.cellsInTile)
    (hd : ∀ n, 0 ≤ draws n ∧ draws n < 1) :
    (fieldCells s).length = (s.tilesInField * s.cellsInTile) ^ 2
    ∧ (s.tilesInField = 7 → s.cellsInTile = 2 → (fieldCells s).length = 196)
    ∧ (∀ v : CellVariation, s.cellVariations = [v] → v.probability = 1 →
        ∀ origin : ℚ × ℚ,
          (populateField s origin draws).length
            = (s.tilesInField * s.cellsInTile) ^ 2) := by
  refine ⟨fieldCells_length s, ?_, ?_⟩
  · intro h7 hc2
    rw [fieldCells_length, h7, hc2]
    norm_num
  · intro v hv hp1 origin
    rw [← fieldCells_length]
    unfold populateField
    have hall : ∀ ic ∈ (fieldCells s).enum,
        (populateCell s origin ic.2 ic.1 draws).isSome := by
      intro ic _
      unfold populateCell
      rw [hv]
      simp only [List.map_cons, List.map_nil, hp1]
      rw [selectIndex, if_pos (hd (4 * ic.1)).2]
      simp
    rw [length_filterMap_all_some _ _ hall, List.enum_length]

/-- Witness for C2: the shipped geometry (7 tiles of 2 cells each) yields
196 cells, and a probability-1 single variation yields 196 instances. -/
theorem claim_C2_field_cell_count_witness :
    (fieldCells unitFieldSettings).length = 196
    ∧ (populateField unitFieldSettings (0, 0) (fun _ => 0)).length = 196 := by
  have h := claim_C2_field_cell_count unitFieldSettings (fun _ => 0)
    (by norm_num [unitFieldSettings]) (by norm_num [unitFieldSettings])
    (by norm_num [unitFieldSettings]) (fun n => ⟨le_refl 0, by norm_num⟩)
  refine ⟨h.2.1 rfl rfl, ?_⟩
  have h2 := h.2.2 unitVariation rfl rfl (0, 0)
  norm_num [unitFieldSettings] at h2
  exact h2

/-- C5: for every cell in which the Field Populator places an instance, the
positional offset applied on each horizontal axis has magnitude at most
`jitter * cellSize / 2`, where `cellSize = tileLength / cellsInTile` and
`jitter` is the selected variation's jitter factor. -/
theorem claim_C5_jitter_bound (s : SceneryFieldSettings) (origin : ℚ × ℚ)
    (cell : Nat × Nat × Nat × Nat) (k : Nat) (draws : Nat → ℚ)
    (i : Nat) (v : CellVariation) (inst : FieldInstance)
    (hd : ∀ n, 0 ≤ draws n ∧ draws n < 1)
    (hj : 0 ≤ v.jitter) (ht : 0 ≤ s.tileLength)
    (hsel : selectIndex (s.cellVariations.map fun v => v.probability)
      (draws (4 * k)) = some i)
    (hget : s.cellVariations[i]? = some v)
    (h : populateCell s origin cell k draws = some inst) :
    |inst.posX - (cellCenter origin s.tileLength s.cellsInTile cell).1|
      ≤ v.jitter * (s.tileLength / (s.cellsInTile : ℚ)) / 2
    ∧ |inst.posZ - (cellCenter origin s.tileLength s.cellsInTile cell).2|
      ≤ v.jitter * (s.tileLength / (s.cellsInTile : ℚ)) / 2 := by
  unfold populateCell at h
  rw [hsel] at h
  replace h : ((s.cellVariations[i]?).map fun v =>
      { model := v.model,
        posX := (cellCenter origin s.tileLength s.cellsInTile cell).1 +
          (draws (4 * k + 1) - 1/2) * (v.jitter * (s.tileLength / (s.cellsInTile : ℚ))),
        posZ := (cellCenter origin s.tileLength s.cellsInTile cell).2 +
          (draws (4 * k + 2) - 1/2) * (v.jitter * (s.tileLength / (s.cellsInTile : ℚ))),
        rotCoeff := if v.randomRotation then 2 * draws (4 * k + 3) else 0 } :
      Option FieldInstance) = some inst := h
  rw [hget, Option.map_some'] at h
  injection h with h
  subst h
  have hcs : 0 ≤ s.tileLength / (s.cellsInTile : ℚ) :=
    div_nonneg ht (Nat.cast_nonneg _)
  have hjc : 0 ≤ v.jitter * (s.tileLength / (s.cellsInTile : ℚ)) := mul_nonneg hj hcs
  constructor
  · have h1 := hd (4 * k + 1)
    have habs : |draws (4 * k + 1) - 1/2| ≤ 1/2 :=
      abs_le.mpr ⟨by linarith [h1.1], by linarith [h1.2]⟩
    calc |(cellCenter origin s.tileLength s.cellsInTile cell).1 +
          (draws (4 * k + 1) - 1/2) * (v.jitter * (s.tileLength / (s.cellsInTile : ℚ))) -
          (cellCenter origin s.tileLength s.cellsInTile cell).1|
        = |draws (4 * k + 1) - 1/2| * (v.jitter * (s.tileLength / (s.cellsInTile : ℚ))) := by
          rw [add_sub_cancel_left, abs_mul, abs_of_nonneg hjc]
      _ ≤ (1/2) * (v.jitter * (s.tileLength / (s.cellsInTile : ℚ))) :=
          mul_le_mul_of_nonneg_right habs hjc
      _ = v.jitter * (s.tileLength / (s.cellsInTile : ℚ)) / 2 := by ring
  · have h2 := hd (4 * k + 2)
    have habs : |draws (4 * k + 2) - 1/2| ≤ 1/2 :=
      abs_le.mpr ⟨by linarith [h2.1], by linarith [h2.2]⟩
    calc |(cellCenter origin s.tileLength s.cellsInTile cell).2 +
          (draws (4 * k + 2) - 1/2) * (v.jitter * (s.tileLength / (s.cellsInTile : ℚ))) -
          (cellCenter origin s.tileLength s.cellsInTile cell).2|
        = |draws (4 * k + 2) - 1/2| * (v.jitter * (s.tileLength / (s.cellsInTile : ℚ))) := by
          rw [add_sub_cancel_left, abs_mul, abs_of_nonneg hjc]
      _ ≤ (1/2) * (v.jitter * (s.tileLength / (s.cellsInTile : ℚ))) :=
          mul_le_mul_of_nonneg_right habs hjc
      _ = v.jitter * (s.tileLength / (s.cellsInTile : ℚ)) / 2 := by ring

/-- The instance produced in cell `(0,0,0,0)` of `unitFieldSettings` under
the all-zero draw stream. -/
def demoFieldInst : FieldInstance :=
  { model := "assets/farm01.gltf", posX := 125/2, posZ := 125/2, rotCoeff := 0 }

/-- Witness for C5: the concrete instance placed in the first cell sits
within `jitter * cellSize / 2` of the cell center on both axes. -/
theorem claim_C5_jitter_bound_witness :
    |demoFieldInst.posX - (cellCenter (0, 0) 2500 2 (0, 0, 0, 0)).1|
      ≤ (9/10 : ℚ) * ((2500 : ℚ) / ((2 : ℕ) : ℚ)) / 2
    ∧ |demoFieldInst.posZ - (cellCenter (0, 0) 2500 2 (0, 0, 0, 0)).2|
      ≤ (9/10 : ℚ) * ((2500 : ℚ) / ((2 : ℕ) : ℚ)) / 2 :=
  claim_C5_jitter_bound unitFieldSettings (0, 0) (0, 0, 0, 0) 0 (fun _ => 0) 0
    unitVariation demoFieldInst
    (fun n => ⟨le_refl 0, by norm_num⟩) (by norm_num [unitVariation])
    (by norm_num [unitFieldSettings])
    (by norm_num [unitFieldSettings, unitVariation, selectIndex])
    (by simp [unitFieldSettings])
    (by norm_num [populateCell, unitFieldSettings, unitVariation, selectIndex,
      cellCenter, demoFieldInst])

/-- C7: running the Field Populator twice with the same seeded random
stream and the same configuration yields identical instance lists (same
models, positions, and rotations): the populator is a deterministic
function of its configuration, origin, and the sequence of random draws. -/
theorem claim_C7_populator_deterministic (s1 s2 : SceneryFieldSettings)
    (o1 o2 : ℚ × ℚ) (d1 d2 : Nat → ℚ)
    (hs : s1 = s2) (ho : o1 = o2) (hd : ∀ n, d1 n = d2 n) :
    populateField s1 o1 d1 = populateField s2 o2 d2 := by
  subst hs
  subst ho
  rw [funext hd]

/-- Witness for C7: two runs over the shipped geometry with the same
constant stream agree. -/
theorem claim_C7_populator_deterministic_witness :
    populateField unitFieldSettings (0, 0) (fun _ => 1/2)
      = populateField unitFieldSettings (0, 0) (fun _ => 1/2) :=
  claim_C7_populator_deterministic unitFieldSettings unitFieldSettings
    (0, 0) (0, 0) (fun _ => 1/2) (fun _ => 1/2) rfl rfl (fun _ => rfl)

/-- C3: every point returned by the surface sampler lies at horizontal
distance at most `spread` from the requested center and on the target
surface region's geometry; when one or more downward-ray intersections
exist, the returned point is the nearest hit, i.e. the topmost (highest Y)
intersection. -/
theorem claim_C3_sample_within_spread_on_surface (region : List Face)
    (center : ℚ × ℚ) (spread dx dz : ℚ) (p : Vec3)
    (hspread : 0 ≤ spread) (hdisc : dx ^ 2 + dz ^ 2 ≤ spread ^ 2)
    (h : sampleOnSurface region center dx dz = some p) :
    (p.x - center.1) ^ 2 + (p.z - center.2) ^ 2 ≤ spread ^ 2
    ∧ Real.sqrt (((p.x - center.1 : ℚ) : ℝ) ^ 2 + ((p.z - center.2 : ℚ) : ℝ) ^ 2)
        ≤ (spread : ℝ)
    ∧ (∃ f ∈ region, f.hitBy p.x p.z = true ∧ f.y = p.y)
    ∧ (∀ f ∈ region, f.hitBy p.x p.z = true → f.y ≤ p.y) := by
  unfold sampleOnSurface raycastDown at h
  cases htop : topHit ((region.filter fun f =>
      f.hitBy (center.1 + dx) (center.2 + dz)).map fun f => f.y) with
  | none =>
    rw [htop] at h
    exact absurd h (by simp)
  | some m =>
    rw [htop] at h
    replace h : some (⟨center.1 + dx, m, center.2 + dz⟩ : Vec3) = some p := h
    injection h with h
    subst h
    refine ⟨?_, ?_, ?_, ?_⟩
    · show (center.1 + dx - center.1) ^ 2 + (center.2 + dz - center.2) ^ 2 ≤ spread ^ 2
      have e1 : center.1 + dx - center.1 = dx := by ring
      have e2 : center.2 + dz - center.2 = dz := by ring
      rw [e1, e2]
      exact hdisc
    · show Real.sqrt (((center.1 + dx - center.1 : ℚ) : ℝ) ^ 2 +
        ((center.2 + dz - center.2 : ℚ) : ℝ) ^ 2) ≤ (spread : ℝ)
      have e1 : (center.1 + dx - center.1 : ℚ) = dx := by ring
      have e2 : (center.2 + dz - center.2 : ℚ) = dz := by ring
      rw [e1, e2]
      have hd2 : ((dx : ℝ)) ^ 2 + ((dz : ℝ)) ^ 2 ≤ ((spread : ℝ)) ^ 2 := by
        exact_mod_cast hdisc
      have hs := Real.sqrt_le_sqrt hd2
      rwa [Real.sqrt_sq (by exact_mod_cast hspread)] at hs
    · rcases List.mem_map.mp (topHit_mem _ _ htop) with ⟨f, hf, hfy⟩
      rcases List.mem_filter.mp hf with ⟨hfr, hfb⟩
      exact ⟨f, hfr, hfb, hfy⟩
    · intro f hfr hfb
      exact topHit_le _ _ htop f.y
        (List.mem_map_of_mem _ (List.mem_filter.mpr ⟨hfr, hfb⟩))

/-- A region consisting of a single face at height 5. -/
def demoRegion : List Face := [⟨-10, 10, -10, 10, 5⟩]

/-- The point the sampler returns over `demoRegion` at offset (3, 4). -/
def demoPoint : Vec3 := ⟨3, 5, 4⟩

/-- Witness for C3: the point sampled at offset (3, 4) with spread 10 lies
within spread of the center. -/
theorem claim_C3_sample_within_spread_on_surface_witness :
    (demoPoint.x - ((0 : ℚ), (0 : ℚ)).1) ^ 2 +
      (demoPoint.z - ((0 : ℚ), (0 : ℚ)).2) ^ 2 ≤ (10 : ℚ) ^ 2 :=
  (claim_C3_sample_within_spread_on_surface demoRegion ((0 : ℚ), (0 : ℚ)) 10 3 4
    demoPoint (by norm_num) (by norm_num)
    (by norm_num [sampleOnSurface, raycastDown, demoRegion, Face.hitBy,
      topHit, demoPoint])).1

/-- The retry loop succeeds whenever the region's footprint covers the
whole disc of radius `spread` around the center and every drawn offset
lies in that disc. -/
theorem retry_isSome_of_cover (region : List Face) (center : ℚ × ℚ)
    (spread : ℚ) (tries : Nat → List (ℚ × ℚ))
    (hcov : ∀ dx dz : ℚ, dx ^ 2 + dz ^ 2 ≤ spread ^ 2 →
      (raycastDown region (center.1 + dx) (center.2 + dz)).isSome)
    (htries : ∀ i, tries i ≠ [] ∧ ∀ o ∈ tries i, o.1 ^ 2 + o.2 ^ 2 ≤ spread ^ 2) :
    ∀ i, (sampleWithRetry region center (tries i)).isSome := by
  intro i
  rcases htries i with ⟨hne, hin⟩
  cases hl : tries i with
  | nil => exact absurd hl hne
  | cons o rest =>
    obtain ⟨dx, dz⟩ := o
    have hmem : ((dx, dz) : ℚ × ℚ) ∈ tries i := by
      rw [hl]
      exact List.mem_cons_self _ _
    rcases Option.isSome_iff_exists.mp (hcov dx dz (hin (dx, dz) hmem)) with ⟨p, hp⟩
    have hs : sampleWithRetry region center ((dx, dz) :: rest) = some p := by
      unfold sampleWithRetry sampleOnSurface
      rw [hp]
    rw [hs]
    rfl

/-- C4: a scatter request for 30 hills, on a surface whose footprint covers
the entire queried disc of radius 20000 around the center, produces exactly
30 placed instances, each with Y-scale in `[0.5, 1.0]` and X- and Z-scale
in `[0.8, 1.0]`. -/
theorem claim_C4_hill_scatter (region : List Face) (center : ℚ × ℚ)
    (tries : Nat → List (ℚ × ℚ)) (draws : Nat → ℚ)
    (hcov : ∀ dx dz : ℚ, dx ^ 2 + dz ^ 2 ≤ 20000 ^ 2 →
      (raycastDown region (center.1 + dx) (center.2 + dz)).isSome)
    (htries : ∀ i, tries i ≠ [] ∧ ∀ o ∈ tries i, o.1 ^ 2 + o.2 ^ 2 ≤ 20000 ^ 2)
    (hd : ∀ n, 0 ≤ draws n ∧ draws n < 1) :
    (scatterPass hillTransform region center 30 tries draws).length = 30
    ∧ ∀ inst ∈ scatterPass hillTransform region center 30 tries draws,
        1/2 ≤ inst.scale.y ∧ inst.scale.y ≤ 1 ∧
        4/5 ≤ inst.scale.x ∧ inst.scale.x ≤ 1 ∧
        4/5 ≤ inst.scale.z ∧ inst.scale.z ≤ 1 := by
  have hretry := retry_isSome_of_cover region center 20000 tries hcov htries
  constructor
  · exact scatterPass_length _ _ _ _ _ _ (fun i _ => hretry i)
  · intro inst hmem
    rcases scatterPass_mem _ _ _ _ _ _ _ hmem with ⟨i, p, hi, hp, hinst⟩
    subst hinst
    have h1 := hd (4 * i)
    have h2 := hd (4 * i + 1)
    have h3 := hd (4 * i + 2)
    refine ⟨?_, ?_, ?_, ?_, ?_, ?_⟩
    · show (1 : ℚ)/2 ≤ 1/2 + draws (4 * i + 1)/2
      linarith [h2.1]
    · show (1 : ℚ)/2 + draws (4 * i + 1)/2 ≤ 1
      linarith [h2.2]
    · show (4 : ℚ)/5 ≤ 4/5 + draws (4 * i)/5
      linarith [h1.1]
    · show (4 : ℚ)/5 + draws (4 * i)/5 ≤ 1
      linarith [h1.2]
    · show (4 : ℚ)/5 ≤ 4/5 + draws (4 * i + 2)/5
      linarith [h3.1]
    · show (4 : ℚ)/5 + draws (4 * i + 2)/5 ≤ 1
      linarith [h3.2]

/-- A single face covering the whole disc of radius 20000 at height 0. -/
def coverFace : Face := ⟨-20000, 20000, -20000, 20000, 0⟩

/-- The whole-disc coverage fact for `coverFace` around the origin. -/
theorem coverFace_covers : ∀ dx dz : ℚ, dx ^ 2 + dz ^ 2 ≤ 20000 ^ 2 →
    (raycastDown [coverFace] (((0 : ℚ), (0 : ℚ)).1 + dx)
      (((0 : ℚ), (0 : ℚ)).2 + dz)).isSome := by
  intro dx dz hdd
  have hx1 : -20000 ≤ dx := by nlinarith [sq_nonneg dz, sq_nonneg (dx + 20000)]
  have hx2 : dx ≤ 20000 := by nlinarith [sq_nonneg dz, sq_nonneg (dx - 20000)]
  have hz1 : -20000 ≤ dz := by nlinarith [sq_nonneg dx, sq_nonneg (dz + 20000)]
  have hz2 : dz ≤ 20000 := by nlinarith [sq_nonneg dx, sq_nonneg (dz - 20000)]
  have hb : coverFace.hitBy ((0 : ℚ) + dx) ((0 : ℚ) + dz) = true := by
    simp only [Face.hitBy, coverFace, Bool.and_eq_true, decide_eq_true_eq]
    refine ⟨⟨⟨by linarith, by linarith⟩, by linarith⟩, by linarith⟩
  show (raycastDown [coverFace] ((0 : ℚ) + dx) ((0 : ℚ) + dz)).isSome
  unfold raycastDown
  rw [List.filter_cons_of_pos]
  · rfl
  · exact hb

/-- The single-offset draw used by the scatter witnesses. -/
theorem originTries_ok : ∀ i : Nat, ((fun _ : Nat => [((0 : ℚ), (0 : ℚ))]) i ≠ [])
    ∧ ∀ o ∈ (fun _ : Nat => [((0 : ℚ), (0 : ℚ))]) i,
        o.1 ^ 2 + o.2 ^ 2 ≤ (20000 : ℚ) ^ 2 := by
  intro i
  refine ⟨by simp, ?_⟩
  intro o ho
  simp only [List.mem_singleton] at ho
  subst ho
  norm_num

/-- Witness for C4: over the covering face, the 30-hill pass places exactly
30 instances. -/
theorem claim_C4_hill_scatter_witness :
    (scatterPass hillTransform [coverFace] ((0 : ℚ), (0 : ℚ)) 30
      (fun _ => [((0 : ℚ), (0 : ℚ))]) (fun _ => 0)).length = 30 :=
  (claim_C4_hill_scatter [coverFace] ((0 : ℚ), (0 : ℚ)) _ _
    coverFace_covers originTries_ok (fun n => ⟨le_refl 0, by norm_num⟩)).1

/-- C6: if the lookup of a named surface region by tag yields no region,
world generation raises a fatal precondition violation naming the tag,
before any random sampling occurs for that scatter pass: the result does
not depend on the random streams and no instance is placed. -/
theorem claim_C6_missing_tag_aborts (flats : List (String × List Face))
    (tag : String) (transform : ℚ → ℚ → ℚ → ℚ → Vec3 × ℚ) (center : ℚ × ℚ)
    (count : Nat) (tries tries2 : Nat → List (ℚ × ℚ)) (draws draws2 : Nat → ℚ)
    (hmiss : flats.find? (fun f => f.1 == tag) = none) :
    scatterOnTag flats tag transform center count tries draws
      = Except.error ("PreconditionViolation: missing surface " ++ tag)
    ∧ scatterOnTag flats tag transform center count tries draws
      = scatterOnTag flats tag transform center count tries2 draws2 := by
  unfold scatterOnTag
  rw [hmiss]
  exact ⟨rfl, rfl⟩

/-- Witness for C6: an empty flats list has no TERRAIN_GRASS mesh, so the
scatter pass aborts with the diagnostic. -/
theorem claim_C6_missing_tag_aborts_witness :
    scatterOnTag [] "TERRAIN_GRASS" hillTransform ((0 : ℚ), (0 : ℚ)) 30
      (fun _ => [((0 : ℚ), (0 : ℚ))]) (fun _ => 0)
      = Except.error ("PreconditionViolation: missing surface " ++ "TERRAIN_GRASS") :=
  (claim_C6_missing_tag_aborts [] "TERRAIN_GRASS" hillTransform ((0 : ℚ), (0 : ℚ))
    30 (fun _ => [((0 : ℚ), (0 : ℚ))]) (fun _ => [((0 : ℚ), (0 : ℚ))])
    (fun _ => 0) (fun _ => 0) rfl).1

/-- C8: every scattered hill and mountain instance receives a rotation
about the vertical axis equal to the fixed base angle pi/4 plus a random
jitter bounded by plus-or-minus pi/8, so the resulting angle always lies
within `[pi/8, 3*pi/8]`. -/
theorem claim_C8_rotation_bounds (region : List Face) (center : ℚ × ℚ)
    (tries : Nat → List (ℚ × ℚ)) (draws : Nat → ℚ) (inst : PlacedInstance)
    (hd : ∀ n, 0 ≤ draws n ∧ draws n < 1)
    (hmem : inst ∈ scatterPass hillTransform region center 30 tries draws
      ++ scatterPass mountainTransform region center 20 tries draws) :
    |(inst.rotCoeff : ℝ) * Real.pi - Real.pi / 4| ≤ Real.pi / 8
    ∧ Real.pi / 8 ≤ (inst.rotCoeff : ℝ) * Real.pi
    ∧ (inst.rotCoeff : ℝ) * Real.pi ≤ 3 * Real.pi / 8 := by
  have hcoeff : ∃ r : ℚ, 0 ≤ r ∧ r < 1 ∧ inst.rotCoeff = 1/4 + (r - 1/2) * (1/4) := by
    rcases List.mem_append.mp hmem with hmem1 | hmem1
    · rcases scatterPass_mem _ _ _ _ _ _ _ hmem1 with ⟨i, p, hi, hp, hinst⟩
      exact ⟨draws (4 * i + 3), (hd _).1, (hd _).2, by rw [hinst]; rfl⟩
    · rcases scatterPass_mem _ _ _ _ _ _ _ hmem1 with ⟨i, p, hi, hp, hinst⟩
      exact ⟨draws (4 * i + 3), (hd _).1, (hd _).2, by rw [hinst]; rfl⟩
  rcases hcoeff with ⟨r, hr0, hr1, hcr⟩
  have hc1 : (1/8 : ℚ) ≤ inst.rotCoeff := by rw [hcr]; linarith
  have hc2 : inst.rotCoeff ≤ 3/8 := by rw [hcr]; linarith
  have habsQ : |inst.rotCoeff - 1/4| ≤ 1/8 :=
    abs_le.mpr ⟨by linarith, by linarith⟩
  have habs : |(inst.rotCoeff : ℝ) - ((1/4 : ℚ) : ℝ)| ≤ ((1/8 : ℚ) : ℝ) := by
    rw [← Rat.cast_sub, ← Rat.cast_abs]
    exact Rat.cast_le.mpr habsQ
  have hcast1 : ((1/8 : ℚ) : ℝ) ≤ (inst.rotCoeff : ℝ) := Rat.cast_le.mpr hc1
  have hcast2 : (inst.rotCoeff : ℝ) ≤ ((3/8 : ℚ) : ℝ) := Rat.cast_le.mpr hc2
  have hpi := Real.pi_pos
  refine ⟨?_, ?_, ?_⟩
  · have he : (inst.rotCoeff : ℝ) * Real.pi - Real.pi / 4
        = ((inst.rotCoeff : ℝ) - ((1/4 : ℚ) : ℝ)) * Real.pi := by push_cast; ring
    rw [he, abs_mul, abs_of_pos hpi]
    calc |(inst.rotCoeff : ℝ) - ((1/4 : ℚ) : ℝ)| * Real.pi
        ≤ ((1/8 : ℚ) : ℝ) * Real.pi :=
          mul_le_mul_of_nonneg_right habs (le_of_lt hpi)
      _ = Real.pi / 8 := by push_cast; ring
  · calc Real.pi / 8 = ((1/8 : ℚ) : ℝ) * Real.pi := by push_cast; ring
      _ ≤ (inst.rotCoeff : ℝ) * Real.pi :=
          mul_le_mul_of_nonneg_right hcast1 (le_of_lt hpi)
  · calc (inst.rotCoeff : ℝ) * Real.pi
        ≤ ((3/8 : ℚ) : ℝ) * Real.pi := mul_le_mul_of_nonneg_right hcast2 (le_of_lt hpi)
      _ = 3 * Real.pi / 8 := by push_cast; ring

/-- The first hill instance over `coverFace` under the all-zero stream. -/
def demoScatterInst : PlacedInstance :=
  { pos := ⟨0, 0, 0⟩, scale := ⟨4/5, 1/2, 4/5⟩, rotCoeff := 1/8 }

/-- Membership of the demo instance in the demo scatter passes. -/
theorem demoScatterInst_mem :
    demoScatterInst ∈ scatterPass hillTransform [coverFace] ((0 : ℚ), (0 : ℚ)) 30
      (fun _ => [((0 : ℚ), (0 : ℚ))]) (fun _ => 0)
      ++ scatterPass mountainTransform [coverFace] ((0 : ℚ), (0 : ℚ)) 20
        (fun _ => [((0 : ℚ), (0 : ℚ))]) (fun _ => 0) := by
  apply List.mem_append_left
  unfold scatterPass
  apply List.mem_filterMap.mpr
  refine ⟨0, by norm_num, ?_⟩
  have hs : sampleWithRetry [coverFace] ((0 : ℚ), (0 : ℚ)) [((0 : ℚ), (0 : ℚ))]
      = some ⟨0, 0, 0⟩ := by
    unfold sampleWithRetry sampleOnSurface raycastDown
    norm_num [Face.hitBy, coverFace, topHit]
  rw [hs, Option.map_some']
  norm_num [hillTransform, demoScatterInst]

/-- Witness for C8: the first placed hill has rotation coefficient 1/8,
whose angle pi/8 meets the lower bound. -/
theorem claim_C8_rotation_bounds_witness :
    Real.pi / 8 ≤ (demoScatterInst.rotCoeff : ℝ) * Real.pi :=
  (claim_C8_rotation_bounds [coverFace] ((0 : ℚ), (0 : ℚ))
    (fun _ => [((0 : ℚ), (0 : ℚ))]) (fun _ => 0) demoScatterInst
    (fun n => ⟨le_refl 0, by norm_num⟩) demoScatterInst_mem).2.1

/-- The 25 grid coordinates of the terrain tiling, in loop order. -/
def gridCoords : List (Int × Int) :=
  [(-2, -2), (-2, -1), (-2, 0), (-2, 1), (-2, 2),
   (-1, -2), (-1, -1), (-1, 0), (-1, 1), (-1, 2),
   (0, -2), (0, -1), (0, 0), (0, 1), (0, 2),
   (1, -2), (1, -1), (1, 0), (1, 1), (1, 2),
   (2, -2), (2, -1), (2, 0), (2, 1), (2, 2)]

/-- The axis scale of a tile equals `SC` when the coordinate is even in
absolute value and `-SC` when odd. -/
theorem tileFor_scaleX_eq (MS SC : ℚ) (x z : Int) :
    (tileFor MS SC x z).scaleX = if x.natAbs % 2 = 0 then SC else -SC := by
  simp only [tileFor]
  by_cases hx : x.natAbs % 2 = 0 <;> simp [hx]

/-- The z-axis counterpart of `tileFor_scaleX_eq`. -/
theorem tileFor_scaleZ_eq (MS SC : ℚ) (x z : Int) :
    (tileFor MS SC x z).scaleZ = if z.natAbs % 2 = 0 then SC else -SC := by
  simp only [tileFor]
  by_cases hz : z.natAbs % 2 = 0 <;> simp [hz]

/-- C9: the terrain tiling loop adds exactly 25 map tile instances, one per
integer grid coordinate `(x, z)` with `-2 ≤ x ≤ 2` and `-2 ≤ z ≤ 2`; the
tile at `(x, z)` is positioned at `(x * MS * SC, z * MS * SC)` where `MS`
is TERRAIN_MODEL_SIZE and `SC` is TERRAIN_SCALE, and its X scale
(respectively Z scale) is negative — the tile is mirrored along that axis —
exactly when `|x|` (respectively `|z|`) is odd, and equals `+SC`
otherwise. -/
theorem claim_C9_terrain_tiling (MS SC : ℚ) (hSC : 0 < SC) :
    (terrainTiles MS SC).length = 25
    ∧ (terrainTiles MS SC).map (fun t => (t.gx, t.gz)) = gridCoords
    ∧ ∀ t ∈ terrainTiles MS SC,
        t.posX = (t.gx : ℚ) * MS * SC ∧ t.posZ = (t.gz : ℚ) * MS * SC
        ∧ (t.scaleX < 0 ↔ t.gx.natAbs % 2 = 1)
        ∧ (t.gx.natAbs % 2 = 0 → t.scaleX = SC)
        ∧ (t.gx.natAbs % 2 = 1 → t.scaleX = -SC)
        ∧ (t.scaleZ < 0 ↔ t.gz.natAbs % 2 = 1)
        ∧ (t.gz.natAbs % 2 = 0 → t.scaleZ = SC)
        ∧ (t.gz.natAbs % 2 = 1 → t.scaleZ = -SC) := by
  refine ⟨rfl, rfl, ?_⟩
  intro t ht
  rcases List.mem_flatMap.mp ht with ⟨i, _, ht2⟩
  rcases List.mem_map.mp ht2 with ⟨j, _, rfl⟩
  set x : Int := (i : Int) - 2 with hxdef
  set z : Int := (j : Int) - 2 with hzdef
  have hneg : -SC < 0 := neg_neg_iff_pos.mpr hSC
  have hsx := tileFor_scaleX_eq MS SC x z
  have hsz := tileFor_scaleZ_eq MS SC x z
  have hgx : (tileFor MS SC x z).gx = x := rfl
  have hgz : (tileFor MS SC x z).gz = z := rfl
  refine ⟨rfl, rfl, ?_, ?_, ?_, ?_, ?_, ?_⟩
  · rw [hsx, hgx]
    by_cases hx : x.natAbs % 2 = 0
    · rw [if_pos hx]
      constructor
      · intro hc
        exact absurd hc (not_lt.mpr (le_of_lt hSC))
      · intro h1
        omega
    · rw [if_neg hx]
      constructor
      · intro _
        omega
      · intro _
        exact hneg
  · intro hx
    rw [hsx, if_pos (hgx ▸ hx)]
  · intro hx
    rw [hsx, if_neg (by rw [hgx] at hx; omega)]
  · rw [hsz, hgz]
    by_cases hz : z.natAbs % 2 = 0
    · rw [if_pos hz]
      constructor
      · intro hc
        exact absurd hc (not_lt.mpr (le_of_lt hSC))
      · intro h1
        omega
    · rw [if_neg hz]
      constructor
      · intro _
        omega
      · intro _
        exact hneg
  · intro hz
    rw [hsz, if_pos (hgz ▸ hz)]
  · intro hz
    rw [hsz, if_neg (by rw [hgz] at hz; omega)]

/-- Witness for C9: at MS = SC = 1 the loop yields 25 tiles covering the
grid coordinates in loop order. -/
theorem claim_C9_terrain_tiling_witness :
    (terrainTiles 1 1).length = 25
    ∧ (terrainTiles 1 1).map (fun t => (t.gx, t.gz)) = gridCoords :=
  ⟨(claim_C9_terrain_tiling 1 1 (by norm_num)).1,
   (claim_C9_terrain_tiling 1 1 (by norm_num)).2.1⟩

/-- C10: exactly 20 mountain instances are scattered (onto the covering
surface with spread 20000), and the component-wise mountain scale and
rotation assignment computes the same transform, as a function of the same
sequence of random draws, as the hill assignment: X/Z scale
`0.8 + r/5`, Y scale `0.5 + r/2`, rotation `pi/4 + (r - 0.5) * pi/4`. -/
theorem claim_C10_mountain_refines_hill (region : List Face) (center : ℚ × ℚ)
    (tries : Nat → List (ℚ × ℚ)) (draws : Nat → ℚ) (r1 r2 r3 r4 : ℚ)
    (hcov : ∀ dx dz : ℚ, dx ^ 2 + dz ^ 2 ≤ 20000 ^ 2 →
      (raycastDown region (center.1 + dx) (center.2 + dz)).isSome)
    (htries : ∀ i, tries i ≠ [] ∧ ∀ o ∈ tries i, o.1 ^ 2 + o.2 ^ 2 ≤ 20000 ^ 2) :
    (scatterPass mountainTransform region center 20 tries draws).length = 20
    ∧ mountainTransform r1 r2 r3 r4 = hillTransform r1 r2 r3 r4
    ∧ (mountainTransform r1 r2 r3 r4).1 = ⟨4/5 + r1/5, 1/2 + r2/2, 4/5 + r3/5⟩
    ∧ ((mountainTransform r1 r2 r3 r4).2 : ℝ) * Real.pi
        = Real.pi / 4 + ((r4 : ℝ) - 1/2) * (Real.pi / 4) := by
  have hretry := retry_isSome_of_cover region center 20000 tries hcov htries
  refine ⟨scatterPass_length _ _ _ _ _ _ (fun i _ => hretry i), rfl, rfl, ?_⟩
  show ((1/4 + (r4 - 1/2) * (1/4) : ℚ) : ℝ) * Real.pi
      = Real.pi / 4 + ((r4 : ℝ) - 1/2) * (Real.pi / 4)
  push_cast
  ring

/-- Witness for C10: over the covering face, the 20-mountain pass places
exactly 20 instances. -/
theorem claim_C10_mountain_refines_hill_witness :
    (scatterPass mountainTransform [coverFace] ((0 : ℚ), (0 : ℚ)) 20
      (fun _ => [((0 : ℚ), (0 : ℚ))]) (fun _ => 0)).length = 20 :=
  (claim_C10_mountain_refines_hill [coverFace] ((0 : ℚ), (0 : ℚ))
    (fun _ => [((0 : ℚ), (0 : ℚ))]) (fun _ => 0) 0 0 0 0
    coverFace_covers originTries_ok).1

end RetroMap
